import Mathlib

/-!
Verification of the maman15 backup server (`src/maman15/server.py`).

The development shallowly embeds the server's checksum engine, wire codec,
request dispatch, database operations and per-request handlers as executable
Lean definitions, and proves or refutes the specification claims about them.

Conventions: Python `bytes` values are `List Nat` with entries below 256;
Python `str` values are `List Nat` of code points (the server only ever
manipulates the ASCII subset, so UTF-8 decoding is the identity on the byte
values); 32-bit arithmetic is `Nat`/`Int` with explicit reduction modulo 2^32.
-/

namespace Maman15

/-! ### Checksum engine (`memcrc`, server.py lines 58-332) -/


/-- The 256-entry table `crctab` copied verbatim from server.py. -/
def crctab : List Nat := [
  0x00000000, 0x04C11DB7, 0x09823B6E, 0x0D4326D9, 0x130476DC, 0x17C56B6B, 0x1A864DB2, 0x1E475005,
  0x2608EDB8, 0x22C9F00F, 0x2F8AD6D6, 0x2B4BCB61, 0x350C9B64, 0x31CD86D3, 0x3C8EA00A, 0x384FBDBD,
  0x4C11DB70, 0x48D0C6C7, 0x4593E01E, 0x4152FDA9, 0x5F15ADAC, 0x5BD4B01B, 0x569796C2, 0x52568B75,
  0x6A1936C8, 0x6ED82B7F, 0x639B0DA6, 0x675A1011, 0x791D4014, 0x7DDC5DA3, 0x709F7B7A, 0x745E66CD,
  0x9823B6E0, 0x9CE2AB57, 0x91A18D8E, 0x95609039, 0x8B27C03C, 0x8FE6DD8B, 0x82A5FB52, 0x8664E6E5,
  0xBE2B5B58, 0xBAEA46EF, 0xB7A96036, 0xB3687D81, 0xAD2F2D84, 0xA9EE3033, 0xA4AD16EA, 0xA06C0B5D,
  0xD4326D90, 0xD0F37027, 0xDDB056FE, 0xD9714B49, 0xC7361B4C, 0xC3F706FB, 0xCEB42022, 0xCA753D95,
  0xF23A8028, 0xF6FB9D9F, 0xFBB8BB46, 0xFF79A6F1, 0xE13EF6F4, 0xE5FFEB43, 0xE8BCCD9A, 0xEC7DD02D,
  0x34867077, 0x30476DC0, 0x3D044B19, 0x39C556AE, 0x278206AB, 0x23431B1C, 0x2E003DC5, 0x2AC12072,
  0x128E9DCF, 0x164F8078, 0x1B0CA6A1, 0x1FCDBB16, 0x018AEB13, 0x054BF6A4, 0x0808D07D, 0x0CC9CDCA,
  0x7897AB07, 0x7C56B6B0, 0x71159069, 0x75D48DDE, 0x6B93DDDB, 0x6F52C06C, 0x6211E6B5, 0x66D0FB02,
  0x5E9F46BF, 0x5A5E5B08, 0x571D7DD1, 0x53DC6066, 0x4D9B3063, 0x495A2DD4, 0x44190B0D, 0x40D816BA,
  0xACA5C697, 0xA864DB20, 0xA527FDF9, 0xA1E6E04E, 0xBFA1B04B, 0xBB60ADFC, 0xB6238B25, 0xB2E29692,
  0x8AAD2B2F, 0x8E6C3698, 0x832F1041, 0x87EE0DF6, 0x99A95DF3, 0x9D684044, 0x902B669D, 0x94EA7B2A,
  0xE0B41DE7, 0xE4750050, 0xE9362689, 0xEDF73B3E, 0xF3B06B3B, 0xF771768C, 0xFA325055, 0xFEF34DE2,
  0xC6BCF05F, 0xC27DEDE8, 0xCF3ECB31, 0xCBFFD686, 0xD5B88683, 0xD1799B34, 0xDC3ABDED, 0xD8FBA05A,
  0x690CE0EE, 0x6DCDFD59, 0x608EDB80, 0x644FC637, 0x7A089632, 0x7EC98B85, 0x738AAD5C, 0x774BB0EB,
  0x4F040D56, 0x4BC510E1, 0x46863638, 0x42472B8F, 0x5C007B8A, 0x58C1663D, 0x558240E4, 0x51435D53,
  0x251D3B9E, 0x21DC2629, 0x2C9F00F0, 0x285E1D47, 0x36194D42, 0x32D850F5, 0x3F9B762C, 0x3B5A6B9B,
  0x0315D626, 0x07D4CB91, 0x0A97ED48, 0x0E56F0FF, 0x1011A0FA, 0x14D0BD4D, 0x19939B94, 0x1D528623,
  0xF12F560E, 0xF5EE4BB9, 0xF8AD6D60, 0xFC6C70D7, 0xE22B20D2, 0xE6EA3D65, 0xEBA91BBC, 0xEF68060B,
  0xD727BBB6, 0xD3E6A601, 0xDEA580D8, 0xDA649D6F, 0xC423CD6A, 0xC0E2D0DD, 0xCDA1F604, 0xC960EBB3,
  0xBD3E8D7E, 0xB9FF90C9, 0xB4BCB610, 0xB07DABA7, 0xAE3AFBA2, 0xAAFBE615, 0xA7B8C0CC, 0xA379DD7B,
  0x9B3660C6, 0x9FF77D71, 0x92B45BA8, 0x9675461F, 0x8832161A, 0x8CF30BAD, 0x81B02D74, 0x857130C3,
  0x5D8A9099, 0x594B8D2E, 0x5408ABF7, 0x50C9B640, 0x4E8EE645, 0x4A4FFBF2, 0x470CDD2B, 0x43CDC09C,
  0x7B827D21, 0x7F436096, 0x7200464F, 0x76C15BF8, 0x68860BFD, 0x6C47164A, 0x61043093, 0x65C52D24,
  0x119B4BE9, 0x155A565E, 0x18197087, 0x1CD86D30, 0x029F3D35, 0x065E2082, 0x0B1D065B, 0x0FDC1BEC,
  0x3793A651, 0x3352BBE6, 0x3E119D3F, 0x3AD08088, 0x2497D08D, 0x2056CD3A, 0x2D15EBE3, 0x29D4F654,
  0xC5A92679, 0xC1683BCE, 0xCC2B1D17, 0xC8EA00A0, 0xD6AD50A5, 0xD26C4D12, 0xDF2F6BCB, 0xDBEE767C,
  0xE3A1CBC1, 0xE760D676, 0xEA23F0AF, 0xEEE2ED18, 0xF0A5BD1D, 0xF464A0AA, 0xF9278673, 0xFDE69BC4,
  0x89B8FD09, 0x8D79E0BE, 0x803AC667, 0x84FBDBD0, 0x9ABC8BD5, 0x9E7D9662, 0x933EB0BB, 0x97FFAD0C,
  0xAFB010B1, 0xAB710D06, 0xA6322BDF, 0xA2F33668, 0xBCB4666D, 0xB8757BDA, 0xB5365D03, 0xB1F740B4]

/-- `UNSIGNED = lambda n: n & 0xFFFFFFFF`.  Python `&` on a possibly negative
int acts on the two's complement representation, i.e. reduces modulo 2^32. -/
def UNSIGNED (n : Int) : Nat := (n % (2 ^ 32 : Int)).toNat

/-- One iteration of the `memcrc` accumulation:
`s = UNSIGNED(s << 8) ^ crctab[(s >> 24) ^ ch]`. -/
def crcStep (s ch : Nat) : Nat :=
  UNSIGNED ((s <<< 8 : Nat) : Int) ^^^ crctab.getD ((s >>> 24) ^^^ ch) 0

/-- Fuel-based unrolling of the `while n:` loop of `memcrc` (the loop
variable strictly decreases, so fuel `n` always suffices; the structural
recursion keeps the definition kernel-computable). -/
def memcrcLenFuel : Nat → Nat → Nat → Nat
  | _, 0, s => s
  | 0, _, s => s
  | fuel + 1, n, s => memcrcLenFuel fuel (n >>> 8) (crcStep s (n &&& 0o377))

/-- The `while n:` loop of `memcrc`, folding the byte length into the
accumulator: `c = n & 0o377; n = n >> 8; s = UNSIGNED(s << 8) ^ crctab[(s >> 24) ^ c]`. -/
def memcrcLen (n s : Nat) : Nat := memcrcLenFuel n n s

/-- `memcrc(b)` from server.py: fold all data bytes, then fold the byte
length, then return `UNSIGNED(~s)` (Python `~s` is `-s - 1`). -/
def memcrc (b : List Nat) : Nat :=
  let s := b.foldl crcStep 0
  let s := memcrcLen b.length s
  UNSIGNED (-(s : Int) - 1)

/-- The per-byte transform exactly as the specification words it:
`s = (s << 8) XOR table[(s >> 24) XOR byte]`, all arithmetic modulo 2^32. -/
def specStep (s ch : Nat) : Nat :=
  ((s <<< 8) ^^^ crctab.getD ((s >>> 24) ^^^ ch) 0) % 2 ^ 32

/-- The specification's length phase: repeatedly take
`s = (s << 8) XOR table[(s >> 24) XOR (length AND 0xFF)]` and right-shift the
remaining length by 8 until it reaches zero. -/
def specLenFoldFuel : Nat → Nat → Nat → Nat
  | _, 0, s => s
  | 0, _, s => s
  | fuel + 1, n, s => specLenFoldFuel fuel (n >>> 8) (specStep s (n &&& 0xFF))

def specLenFold (n s : Nat) : Nat := specLenFoldFuel n n s

/-- The checksum algorithm exactly as claim C1 describes it: fold the data
bytes, fold the length from its low byte upward, and return the bitwise
complement of the accumulator masked to 32 bits. -/
def checksumSpec (b : List Nat) : Nat :=
  let s := b.foldl specStep 0
  let s := specLenFold b.length s
  s ^^^ 0xFFFFFFFF

/-! ### Wire codec (`RequestMessage`, server.py lines 350-359 and 512-531) -/


def CLIENT_ID_LEN : Nat := 16

def PUBLIC_KEY_SIZE : Nat := 160

def AES_KEY_SIZE : Nat := 16

def MAX_USER_NAME_LEN : Nat := 255

def MAX_FILE_NAME_LEN : Nat := 255

def REQUEST_MIN_LEN : Nat := 23

/-- Little-endian read of the first `k` bytes of `l` (the `struct.unpack`
interpretation of the `<B`, `<H` and `<I` fields). -/
def readLE : Nat → List Nat → Nat
  | 0, _ => 0
  | _ + 1, [] => 0
  | k + 1, b :: rest => b + 256 * readLE k rest

structure RequestMessage where
  client_id : List Nat
  version : Nat
  code : Nat
  payload_size : Nat
  payload : List Nat
deriving DecidableEq

/-- `RequestMessage.__init__`: reject buffers shorter than `REQUEST_MIN_LEN`,
split off the 16-byte client id, unpack `<BHI` from the next 7 bytes
(version, code, payload_size), and reject the message unless the remaining
bytes are exactly `payload_size` long.  The message code is not examined. -/
def RequestMessage.decode (buffer : List Nat) : Option RequestMessage :=
  if buffer.length < REQUEST_MIN_LEN then none
  else
    let client_id := buffer.take CLIENT_ID_LEN
    let rest := buffer.drop CLIENT_ID_LEN
    let version := readLE 1 rest
    let code := readLE 2 (rest.drop 1)
    let payload_size := readLE 4 (rest.drop 3)
    let payload := rest.drop 7
    if payload.length ≠ payload_size then none
    else some ⟨client_id, version, code, payload_size, payload⟩

/-- Little-endian encoding of `n` into exactly `k` bytes. -/
def encodeLE : Nat → Nat → List Nat
  | 0, _ => []
  | k + 1, n => n % 256 :: encodeLE k (n / 256)

/-- Re-encoding of the decoded fields, as claim C10 words it: the 16-byte
client identity, then version, message code and payload length as
little-endian integers (1, 2 and 4 bytes), then the payload bytes. -/
def RequestMessage.encode (m : RequestMessage) : List Nat :=
  m.client_id ++ encodeLE 1 m.version ++ encodeLE 2 m.code
    ++ encodeLE 4 m.payload_size ++ m.payload

/-! ### Request codes and the `handle_message` dispatch (server.py 362-371, 833-863) -/


inductive RequestCode
  | SIGN_UP
  | SEND_PUBLIC_KEY
  | SIGN_IN
  | SEND_FILE
  | CRC_VALID
  | CRC_INVALID
  | CRC_INVALID_4TH_TIME
deriving DecidableEq

/-- Numeric values of the `RequestCode` enum members. -/
def RequestCode.val : RequestCode → Nat
  | .SIGN_UP => 1025
  | .SEND_PUBLIC_KEY => 1026
  | .SIGN_IN => 1027
  | .SEND_FILE => 1028
  | .CRC_VALID => 1029
  | .CRC_INVALID => 1030
  | .CRC_INVALID_4TH_TIME => 1031

/-- Whether a numeric code is the value of one of the seven recognized
request codes (the codec-level check the specification describes; the source
decoder never performs it). -/
def recognizedCode (n : Nat) : Bool :=
  [RequestCode.SIGN_UP, .SEND_PUBLIC_KEY, .SIGN_IN, .SEND_FILE, .CRC_VALID,
    .CRC_INVALID, .CRC_INVALID_4TH_TIME].any (fun c => c.val == n)

/-- A Python runtime value as far as the dispatch comparison is concerned:
either a plain `int` or a `RequestCode` enum member. -/
inductive PyVal
  | int (n : Nat)
  | enumMember (c : RequestCode)
deriving DecidableEq

/-- Python `==` on such values: two ints compare by value, two enum members
by identity, and an int never equals an enum member (`int.__eq__` returns
`NotImplemented` and `Enum.__eq__` falls back to object identity).  This is
the comparison a `match` statement's value pattern performs. -/
def pyEq : PyVal → PyVal → Bool
  | .int a, .int b => a == b
  | .enumMember a, .enumMember b => a == b
  | _, _ => false

/-- The eight outcomes of the `match request.code:` statement in
`Client.handle_message`. -/
inductive Branch
  | registration
  | publicKey
  | login
  | file
  | validCrc
  | invalidCrc
  | terminate
  | invalidCode
deriving DecidableEq

/-- The dispatch of `Client.handle_message`: `request.code` (the `int`
unpacked by the codec) is matched against the seven `RequestCode.*` value
patterns in order; the wildcard case raises `ValueError` ("Invalid request
code"). -/
def handleDispatch (code : Nat) : Branch :=
  if pyEq (.int code) (.enumMember .SIGN_UP) then .registration
  else if pyEq (.int code) (.enumMember .SEND_PUBLIC_KEY) then .publicKey
  else if pyEq (.int code) (.enumMember .SIGN_IN) then .login
  else if pyEq (.int code) (.enumMember .SEND_FILE) then .file
  else if pyEq (.int code) (.enumMember .CRC_VALID) then .validCrc
  else if pyEq (.int code) (.enumMember .CRC_INVALID) then .invalidCrc
  else if pyEq (.int code) (.enumMember .CRC_INVALID_4TH_TIME) then .terminate
  else .invalidCode

/-! ### Python strings, validators, SQLite values (server.py 739-756, 865-867) -/


/-- `Client._get_string_from_bytes`: `str(b.split(b"\x00")[0], "utf-8")` — the
bytes before the first NUL.  UTF-8 decoding is modelled as the identity on
code points, which is exact on the ASCII subset the server handles. -/
def getStringFromBytes (b : List Nat) : List Nat := b.takeWhile (fun c => c != 0)

/-- ASCII reading of Python `str.isalpha`. -/
def pyIsAlpha (c : Nat) : Bool := (65 ≤ c && c ≤ 90) || (97 ≤ c && c ≤ 122)

/-- ASCII reading of Python `str.isdigit`. -/
def pyIsDigit (c : Nat) : Bool := 48 ≤ c && c ≤ 57

/-- ASCII reading of Python `str.isalnum`. -/
def pyIsAlnum (c : Nat) : Bool := pyIsAlpha c || pyIsDigit c

/-- `DatabaseManager._validate_username` accepts a character iff it is
alphabetic or a space; any other character raises `ValueError`. -/
def validUsername (u : List Nat) : Bool := u.all (fun c => pyIsAlpha c || c == 32)

/-- The characters `DatabaseManager._validate_filename` accepts:
alphanumeric, space, dot or slash.  Dot and slash are allowed, so the
traversal sequences `..` and `/` pass; backslash (92) does not. -/
def validFilenameChar (c : Nat) : Bool := pyIsAlnum c || c == 32 || c == 46 || c == 47

/-- `DatabaseManager._validate_filename`. -/
def validFilename (f : List Nat) : Bool := f.all validFilenameChar

/-- An SQLite stored value: the tables hold TEXT (from Python `str`) and
BLOB (from Python `bytes`) values. -/
inductive SqlVal
  | blob (b : List Nat)
  | text (s : List Nat)
deriving DecidableEq

/-- SQLite `=` between stored values: values of different storage classes
(TEXT vs BLOB) are never equal; within a class, comparison is by content. -/
def sqlEq : SqlVal → SqlVal → Bool
  | .blob a, .blob b => a == b
  | .text a, .text b => a == b
  | _, _ => false

/-- A row of the `clients` table: `(id, name, public_key, last_seen,
aes_key)`.  `last_seen` (`time.asctime()`) is opaque to every claim and is
modelled as a number. -/
structure ClientRecord where
  id : List Nat
  name : List Nat
  public_key : List Nat
  last_seen : Nat
  aes_key : List Nat
deriving DecidableEq

/-- A row of the `files` table: `(id, file_name, saved_path, verified)`.
Column values keep their SQLite storage class, because
`set_file_to_valid` compares the TEXT column `file_name` with a BLOB. -/
structure FileRecord where
  id : SqlVal
  file_name : SqlVal
  saved_path : SqlVal
  verified : Nat
deriving DecidableEq

/-- The two tables, rows in insertion order (a SELECT without ORDER BY
returns rowid order). -/
structure DB where
  clients : List ClientRecord
  files : List FileRecord
deriving DecidableEq

/-! ### DatabaseManager (server.py 621-756) -/


/-- `create_new_client`: validate the username, draw a fresh id
(`os.urandom(CLIENT_ID_LEN)`, supplied by the caller) and INSERT
`(id, username, b"", asctime, b"")`.  `id` is the PRIMARY KEY, so a
duplicate id raises `IntegrityError`. -/
def DatabaseManager.create_new_client (freshId : List Nat) (db : DB)
    (username : List Nat) : Except Unit DB :=
  if ¬ validUsername username then .error ()
  else if db.clients.any (fun r => r.id == freshId) then .error ()
  else .ok { db with clients := db.clients ++ [⟨freshId, username, [], 0, []⟩] }

/-- `get_client_by_name`: validate the username, then return the first row
whose `name` matches (the Python code returns `rows[0]` or `[]`). -/
def DatabaseManager.get_client_by_name (db : DB) (username : List Nat) :
    Except Unit (Option ClientRecord) :=
  if ¬ validUsername username then .error ()
  else .ok ((db.clients.filter (fun r => r.name == username)).head?)

/-- `get_client_by_id`: first row whose `id` matches. -/
def DatabaseManager.get_client_by_id (db : DB) (client_id : List Nat) :
    Option ClientRecord :=
  (db.clients.filter (fun r => r.id == client_id)).head?

/-- `update_public_key`: `UPDATE clients SET public_key = ? WHERE id = ?`. -/
def DatabaseManager.update_public_key (db : DB) (client_id public_key : List Nat) : DB :=
  { db with clients := (db.clients.map
      (fun r => if r.id == client_id then { r with public_key := public_key } else r)) }

/-- `update_aes_key`: `UPDATE clients SET aes_key = ? WHERE id = ?`. -/
def DatabaseManager.update_aes_key (db : DB) (client_id aes_key : List Nat) : DB :=
  { db with clients := (db.clients.map
      (fun r => if r.id == client_id then { r with aes_key := aes_key } else r)) }

/-- `_id_to_path` derives the saved path from a base32 rendering of the id
and a SHA-256 digest of the filename; no claim inspects the path, so the
two encodings are abstracted to the raw pair. -/
def idToPath (file_id filename : List Nat) : List Nat := file_id ++ filename

/-- `insert_unvalidated_file`: validate the filename (`ValueError` on any
character outside alnum/space/dot/slash), write the content to disk
(outside the database model) and INSERT `(file_id, filename, path, 0)`.
Parameters keep their Python types: `file_id` is bytes (BLOB), `filename`
is str (TEXT). -/
def DatabaseManager.insert_unvalidated_file (db : DB)
    (filename file_content file_id : List Nat) : Except Unit DB :=
  if ¬ validFilename filename then .error ()
  else .ok { db with files := db.files
      ++ [⟨.blob file_id, .text filename, .text (idToPath file_id filename), 0⟩] }

/-- `set_file_to_valid`: `UPDATE files SET verified = 1 WHERE file_name = ?`
with the `file_id` argument bound to the `file_name` column.  The only
caller passes the 16-byte client id, a bytes value, so the comparison is
BLOB against the TEXT column. -/
def DatabaseManager.set_file_to_valid (db : DB) (file_id : SqlVal) : DB :=
  { db with files := (db.files.map
      (fun r => if sqlEq r.file_name file_id then { r with verified := 1 } else r)) }

/-- Number of validated `files` rows for a given owner identity and
filename. -/
def DB.countValidated (db : DB) (client_id fname : List Nat) : Nat :=
  (db.files.filter (fun r =>
    r.id == SqlVal.blob client_id && r.file_name == SqlVal.text fname
      && r.verified == 1)).length

/-! ### Responses, crypto primitives, CBC decryption -/


/-- Modelled from the spec: the response codec (the `responses` module named
by `Client._send_*`) is not under src/; each variant carries the payload
fields section 6 of the specification assigns to it. -/
inductive SResponse
  | registrationSuccessful (client_id : List Nat)
  | registrationFailed
  | publicKeyReceived (client_id enc_aes_key : List Nat)
  | fileReceived (client_id : List Nat) (content_size : Nat) (filename : List Nat) (crc : Nat)
  | genericAck (client_id : List Nat)
  | loginSuccessful (client_id enc_aes_key : List Nat)
  | loginFailed (client_id : List Nat)
  | genericFailure
deriving DecidableEq

/-- Modelled from the spec: the randomness and RSA/AES primitives
(`os.urandom`, PyCryptodome) the handlers call but src/ does not define.
`urandom_id` / `urandom_key` are the next 16-byte values `os.urandom`
returns for a client id / session key; `rsaWrap key pub` is OAEP encryption
of the session key under `pub` (`.error` when `RSA.import_key` rejects the
key bytes); `aesDec key block` is single-block AES decryption. -/
structure Oracle where
  urandom_id : List Nat
  urandom_key : List Nat
  rsaWrap : List Nat → List Nat → Except Unit (List Nat)
  aesDec : List Nat → List Nat → List Nat

/-- Split a byte string into 16-byte blocks (the last block keeps whatever
remains). -/
def chunks16Fuel : Nat → List Nat → List (List Nat)
  | _, [] => []
  | 0, _ => []
  | fuel + 1, l => l.take 16 :: chunks16Fuel fuel (l.drop 16)

def chunks16 (l : List Nat) : List (List Nat) := chunks16Fuel l.length l

/-- Modelled from the spec: CBC block-chained decryption — each plaintext
block is the single-block decryption of its ciphertext block XORed with the
previous ciphertext block (the IV for the first block). -/
def cbcChain (decBlock : List Nat → List Nat) (prev : List Nat) :
    List (List Nat) → List (List Nat)
  | [] => []
  | c :: cs => List.zipWith (fun a b => a ^^^ b) (decBlock c) prev :: cbcChain decBlock c cs

/-- Modelled from the spec: `AES.new(key, AES.MODE_CBC, IV=iv).decrypt(ct)`. -/
def pyCbcDecrypt (decBlock : List Nat → List Nat) (iv ct : List Nat) : List Nat :=
  List.flatten (cbcChain decBlock iv (chunks16 ct))

/-- The decryption loop of `Client._decrypt_and_save_file`: for each `i`
below `len(encrypted_file) // 16`, decrypt `encrypted_file[i*16:(i+1)*16]`
with a fresh CBC cipher whose IV is `bytes(16)` (all zeros), and
concatenate the plaintexts in order. -/
def decryptLoop (decBlock : List Nat → List Nat) (encrypted : List Nat) : List Nat :=
  (List.range (encrypted.length / 16)).foldl
    (fun acc i => acc ++ pyCbcDecrypt decBlock (List.replicate 16 0)
      ((encrypted.drop (i * 16)).take 16)) []

/-- Independent per-block decryption, as claim C6 words it: the in-order
concatenation of the single-block decryptions of each 16-byte block. -/
def independentBlockDecrypt (decBlock : List Nat → List Nat) (ct : List Nat) : List Nat :=
  List.flatten ((chunks16 ct).map decBlock)

/-! ### Client session state and handlers (server.py 822-1027) -/


/-- The per-connection state of `Client`: `client_id` starts as `bytes(16)`;
`username`, `filename` and `aes_key` are attributes that do not exist until
first assigned (reading them raises `AttributeError`), modelled as `Option`;
`awaiting_file` is the TRANSFER/CONTROL mode flag, `active` the liveness
flag.  `last_active_time` and the socket object are not modelled; no claim
mentions them. -/
structure ClientState where
  client_id : List Nat
  username : Option (List Nat)
  filename : Option (List Nat)
  aes_key : Option (List Nat)
  awaiting_file : Bool
  active : Bool
deriving DecidableEq

/-- `Client.__init__`. -/
def initialClientState : ClientState :=
  ⟨List.replicate 16 0, none, none, none, false, true⟩

/-- Outcome of one handler: `ok` carries the new state, database and the
response written to the socket (`none` when the handler writes nothing, as
`_handle_invalid_crc` does); `err` means a Python exception was raised and
carries the state and database as already mutated at the raise point. -/
inductive HRes
  | ok (st : ClientState) (db : DB) (resp : Option SResponse)
  | err (st : ClientState) (db : DB)
deriving DecidableEq

/-- `Client._get_encrypted_aes_key`: set `self.aes_key = urandom(16)`, store
it in the registry, then `RSA.import_key` and OAEP-encrypt.  The state and
database mutations happen before the import, so they survive a key-import
failure. -/
def Client.get_encrypted_aes_key (o : Oracle) (st : ClientState) (db : DB)
    (public_key : List Nat) : ClientState × DB × Except Unit (List Nat) :=
  let st1 := { st with aes_key := some o.urandom_key }
  let db1 := DatabaseManager.update_aes_key db st.client_id o.urandom_key
  (st1, db1, o.rsaWrap o.urandom_key public_key)

/-- `Client._handle_registration`. -/
def Client.handle_registration (o : Oracle) (st : ClientState) (db : DB)
    (req : RequestMessage) : HRes :=
  if st.awaiting_file then .err st db
  else if req.payload_size ≠ MAX_USER_NAME_LEN then .err st db
  else
    let username := getStringFromBytes req.payload
    match DatabaseManager.get_client_by_name db username with
    | .error _ => .err st db
    | .ok (some _) => .ok st db (some .registrationFailed)
    | .ok none =>
      match DatabaseManager.create_new_client o.urandom_id db username with
      | .error _ => .err st db
      | .ok db1 =>
        let st1 := { st with username := some username }
        match DatabaseManager.get_client_by_name db1 username with
        | .error _ => .err st1 db1
        | .ok none => .err st1 db1
        | .ok (some row) =>
          .ok { st1 with client_id := row.id } db1 (some (.registrationSuccessful row.id))

/-- `Client._handle_public_key`. -/
def Client.handle_public_key (o : Oracle) (st : ClientState) (db : DB)
    (req : RequestMessage) : HRes :=
  if st.awaiting_file then .err st db
  else if req.payload_size ≠ MAX_USER_NAME_LEN + PUBLIC_KEY_SIZE then .err st db
  else
    let username := getStringFromBytes (req.payload.take MAX_USER_NAME_LEN)
    let public_key := req.payload.drop MAX_USER_NAME_LEN
    if st.client_id ≠ req.client_id then .err st db
    else
      match st.username with
      | none => .err st db
      | some un =>
        if un ≠ username then .err st db
        else
          let db1 := DatabaseManager.update_public_key db st.client_id public_key
          match Client.get_encrypted_aes_key o st db1 public_key with
          | (st1, db2, .error _) => .err st1 db2
          | (st1, db2, .ok enc) =>
            .ok { st1 with awaiting_file := true } db2
              (some (.publicKeyReceived st.client_id enc))

/-- `Client._handle_login`. -/
def Client.handle_login (o : Oracle) (st : ClientState) (db : DB)
    (req : RequestMessage) : HRes :=
  if st.awaiting_file then .err st db
  else if req.payload_size ≠ MAX_USER_NAME_LEN then .err st db
  else
    match DatabaseManager.get_client_by_id db req.client_id with
    | none => .ok st db (some (.loginFailed st.client_id))
    | some row =>
      if row.public_key = [] then .ok st db (some (.loginFailed st.client_id))
      else
        let username := getStringFromBytes (req.payload.take MAX_USER_NAME_LEN)
        if username ≠ row.name then .err st db
        else
          let st1 := { st with client_id := req.client_id, username := some username }
          match Client.get_encrypted_aes_key o st1 db row.public_key with
          | (st2, db2, .error _) => .err st2 db2
          | (st2, db2, .ok enc) =>
            .ok { st2 with awaiting_file := true } db2
              (some (.loginSuccessful st1.client_id enc))

/-- `Client._decrypt_and_save_file`: decrypt each full 16-byte block with a
fresh zero-IV CBC cipher, require at least `content_size` plaintext bytes,
truncate, insert the unvalidated file record, and return the plaintext
checksum.  `AES.new` is only reached when the loop runs at least once; it
raises if `self.aes_key` is unset (`AttributeError`) or not 16 bytes. -/
def Client.decrypt_and_save_file (o : Oracle) (st : ClientState) (db : DB)
    (encrypted : List Nat) (content_size : Nat) : Except Unit (DB × Nat) :=
  let decrypted : Except Unit (List Nat) :=
    if encrypted.length / 16 = 0 then .ok []
    else
      match st.aes_key with
      | none => .error ()
      | some k =>
        if k.length ≠ 16 then .error ()
        else .ok (decryptLoop (o.aesDec k) encrypted)
  match decrypted with
  | .error _ => .error ()
  | .ok file_content =>
    if file_content.length < content_size then .error ()
    else
      let fc := file_content.take content_size
      match st.filename with
      | none => .error ()
      | some fn =>
        match DatabaseManager.insert_unvalidated_file db fn fc st.client_id with
        | .error _ => .error ()
        | .ok db1 => .ok (db1, memcrc fc)

/-- `Client._handle_file`.  Note that `self.filename` is assigned before
`_decrypt_and_save_file` runs, so the assignment survives a decryption or
persistence failure. -/
def Client.handle_file (o : Oracle) (st : ClientState) (db : DB)
    (req : RequestMessage) : HRes :=
  if ¬ st.awaiting_file then .err st db
  else if st.client_id ≠ req.client_id then .err st db
  else if req.payload_size ≤ 4 + MAX_FILE_NAME_LEN then .err st db
  -- struct.unpack("<I", request.payload[:4]) raises unless exactly 4 bytes are present
  else if (req.payload.take 4).length ≠ 4 then .err st db
  else
    let content_size := readLE 4 (req.payload.take 4)
    let padded_content_size :=
      (content_size / AES_KEY_SIZE) * AES_KEY_SIZE
        + (if content_size % AES_KEY_SIZE ≠ 0 then AES_KEY_SIZE else 0)
    let fn := getStringFromBytes ((req.payload.drop 4).take MAX_FILE_NAME_LEN)
    let st1 := { st with filename := some fn }
    let encrypted := (req.payload.drop (MAX_FILE_NAME_LEN + 4)).take padded_content_size
    match Client.decrypt_and_save_file o st1 db encrypted content_size with
    | .error _ => .err st1 db
    | .ok (db1, crc) =>
      .ok { st1 with awaiting_file := false } db1
        (some (.fileReceived st1.client_id content_size fn crc))

/-- `Client._handle_valid_crc`. -/
def Client.handle_valid_crc (o : Oracle) (st : ClientState) (db : DB)
    (req : RequestMessage) : HRes :=
  if st.awaiting_file then .err st db
  else if st.client_id ≠ req.client_id then .err st db
  else if req.payload_size ≠ MAX_FILE_NAME_LEN then .err st db
  else
    let filename := getStringFromBytes req.payload
    match st.filename with
    | none => .err st db
    | some fn =>
      if filename ≠ fn then .err st db
      else
        .ok st (DatabaseManager.set_file_to_valid db (.blob st.client_id))
          (some (.genericAck st.client_id))

/-- `Client._handle_invalid_crc` (no mode precondition, no response). -/
def Client.handle_invalid_crc (o : Oracle) (st : ClientState) (db : DB)
    (req : RequestMessage) : HRes :=
  if st.client_id ≠ req.client_id then .err st db
  else if req.payload_size ≠ MAX_FILE_NAME_LEN then .err st db
  else
    let filename := getStringFromBytes req.payload
    match st.filename with
    | none => .err st db
    | some fn =>
      if filename ≠ fn then .err st db
      else .ok { st with awaiting_file := true } db none

/-- `Client._handle_terminate`. -/
def Client.handle_terminate (o : Oracle) (st : ClientState) (db : DB)
    (req : RequestMessage) : HRes :=
  if ¬ st.awaiting_file then .err st db
  else if st.client_id ≠ req.client_id then .err st db
  else if req.payload_size ≠ MAX_FILE_NAME_LEN then .err st db
  else
    let filename := getStringFromBytes req.payload
    match st.filename with
    | none => .err st db
    | some fn =>
      if filename ≠ fn then .err st db
      else .ok { st with active := false } db (some (.genericAck st.client_id))

/-- The handler a given `RequestCode` names (the bodies of the seven `case`
branches of `Client.handle_message`). -/
def Client.runHandler (o : Oracle) (c : RequestCode) (st : ClientState) (db : DB)
    (req : RequestMessage) : HRes :=
  match c with
  | .SIGN_UP => Client.handle_registration o st db req
  | .SEND_PUBLIC_KEY => Client.handle_public_key o st db req
  | .SIGN_IN => Client.handle_login o st db req
  | .SEND_FILE => Client.handle_file o st db req
  | .CRC_VALID => Client.handle_valid_crc o st db req
  | .CRC_INVALID => Client.handle_invalid_crc o st db req
  | .CRC_INVALID_4TH_TIME => Client.handle_terminate o st db req

/-- The `except` clause of `Client.handle_message`: an exception is caught
and answered with `_send_generic_failure`; the mutations made before the
raise stand. -/
def Client.afterCatch : HRes → ClientState × DB × List SResponse
  | .ok st db resp => (st, db, resp.toList)
  | .err st db => (st, db, [.genericFailure])

/-- Running one handler under `handle_message`'s try/except. -/
def Client.handlerStep (o : Oracle) (c : RequestCode) (st : ClientState) (db : DB)
    (req : RequestMessage) : ClientState × DB × List SResponse :=
  Client.afterCatch (Client.runHandler o c st db req)

/-- Result of `Client.handle_message` on one inbound buffer:
`inactiveError` is the `RuntimeError` raised (outside the try block, hence
uncaught) when the session is no longer active — nothing is decoded,
dispatched or sent; `step` carries the final state, database and the
responses written. -/
inductive MsgResult
  | inactiveError
  | step (st : ClientState) (db : DB) (sent : List SResponse)
deriving DecidableEq

/-- `Client.handle_message`: raise on an inactive session, decode the
buffer, dispatch on `request.code` via `match`, and turn any exception into
a generic failure response. -/
def Client.handle_message (o : Oracle) (st : ClientState) (db : DB)
    (buffer : List Nat) : MsgResult :=
  if ¬ st.active then .inactiveError
  else
    match RequestMessage.decode buffer with
    | none => .step st db [.genericFailure]
    | some req =>
      match handleDispatch req.code with
      | .registration => let (a, b, s) := Client.handlerStep o .SIGN_UP st db req; .step a b s
      | .publicKey => let (a, b, s) := Client.handlerStep o .SEND_PUBLIC_KEY st db req; .step a b s
      | .login => let (a, b, s) := Client.handlerStep o .SIGN_IN st db req; .step a b s
      | .file => let (a, b, s) := Client.handlerStep o .SEND_FILE st db req; .step a b s
      | .validCrc => let (a, b, s) := Client.handlerStep o .CRC_VALID st db req; .step a b s
      | .invalidCrc => let (a, b, s) := Client.handlerStep o .CRC_INVALID st db req; .step a b s
      | .terminate => let (a, b, s) := Client.handlerStep o .CRC_INVALID_4TH_TIME st db req; .step a b s
      | .invalidCode => .step st db [.genericFailure]

/-- Modelled from the spec: the connection multiplexer (src/ only contains a
commented-out `main`) destroys a session and closes its socket once `alive`
is false (spec sections 3 and 4.5). -/
def multiplexerClosesSocket (st : ClientState) : Bool := ! st.active

/-! ### Concrete fixtures used by witnesses and counterexamples -/


/-- A concrete oracle for the concrete runs: fixed fresh id and session key,
an RSA wrap that accepts every key, and single-block AES decryption taken
to be the identity.  (Every theorem quantified over `Oracle` holds for all
of them; the fixture only instantiates witnesses.) -/
def oracle0 : Oracle :=
  ⟨List.replicate 16 7, List.replicate 16 9,
    fun _ _ => .ok (List.replicate 128 1), fun _ b => b⟩

/-- An empty database. -/
def db0 : DB := ⟨[], []⟩

/-- A session mid-handshake: identity bound, username "a", a completed key
exchange (`aes_key` set), `pending_filename` "a", TRANSFER mode, active. -/
def stTransfer : ClientState :=
  ⟨List.replicate 16 1, some [97], some [97], some (List.replicate 16 2), true, true⟩

/-! ### C4 — error handling and state preservation -/


/-- A SEND_FILE request whose embedded filename "a_b" contains an
underscore, a character `DatabaseManager._validate_filename` rejects. -/
def reqUnderscoreName : RequestMessage :=
  ⟨List.replicate 16 1, 4, 1028, 275,
    [16, 0, 0, 0] ++ ([97, 95, 98] ++ List.replicate 252 0) ++ List.replicate 16 5⟩

/-- The precondition guards of each handler (wrong mode, identity/username/
filename mismatch, wrong payload size), evaluated on the session, the
database and the decoded request — exactly the checks the handler performs
before its first side effect. -/
def precondViolated (c : RequestCode) (st : ClientState) (db : DB)
    (req : RequestMessage) : Bool :=
  match c with
  | .SIGN_UP => st.awaiting_file || req.payload_size != MAX_USER_NAME_LEN
  | .SEND_PUBLIC_KEY =>
      st.awaiting_file
        || req.payload_size != MAX_USER_NAME_LEN + PUBLIC_KEY_SIZE
        || st.client_id != req.client_id
        || st.username != some (getStringFromBytes (req.payload.take MAX_USER_NAME_LEN))
  | .SIGN_IN =>
      st.awaiting_file || req.payload_size != MAX_USER_NAME_LEN
        || (match DatabaseManager.get_client_by_id db req.client_id with
            | some row => !(row.public_key == [])
                && getStringFromBytes (req.payload.take MAX_USER_NAME_LEN) != row.name
            | none => false)
  | .SEND_FILE =>
      !st.awaiting_file || st.client_id != req.client_id
        || decide (req.payload_size ≤ 4 + MAX_FILE_NAME_LEN)
  | .CRC_VALID =>
      st.awaiting_file || st.client_id != req.client_id
        || req.payload_size != MAX_FILE_NAME_LEN
        || st.filename != some (getStringFromBytes req.payload)
  | .CRC_INVALID =>
      st.client_id != req.client_id || req.payload_size != MAX_FILE_NAME_LEN
        || st.filename != some (getStringFromBytes req.payload)
  | .CRC_INVALID_4TH_TIME =>
      !st.awaiting_file || st.client_id != req.client_id
        || req.payload_size != MAX_FILE_NAME_LEN
        || st.filename != some (getStringFromBytes req.payload)

/-! ### C5 — the CRC_VALID / CRC_INVALID round-trip -/


/-- A well-formed SEND_FILE request from `stTransfer`'s client for filename
"nx" with one 16-byte ciphertext block and `content_size = 16`. -/
def reqSendFile : RequestMessage :=
  ⟨List.replicate 16 1, 4, 1028, 275,
    [16, 0, 0, 0] ++ ([110, 120] ++ List.replicate 253 0) ++ List.replicate 16 5⟩

/-- The matching CRC_VALID request for filename "nx". -/
def reqCrcValid : RequestMessage :=
  ⟨List.replicate 16 1, 4, 1029, 255, [110, 120] ++ List.replicate 253 0⟩

/-! ### C9 — path-traversal characters in filenames -/


/-- A SEND_FILE request whose embedded filename is "../x" — it contains
both ".." and "/". -/
def reqTraversalName : RequestMessage :=
  ⟨List.replicate 16 1, 4, 1028, 275,
    [16, 0, 0, 0] ++ ([46, 46, 47, 120] ++ List.replicate 251 0) ++ List.replicate 16 5⟩

/-- The filename field a SEND_FILE request carries: bytes 4..259 of the
payload up to the first NUL. -/
def sendFileFilenameOf (req : RequestMessage) : List Nat :=
  getStringFromBytes ((req.payload.drop 4).take MAX_FILE_NAME_LEN)

/-- A SIGN_UP request for the username "bob1" — a name the wire-protocol
section of the specification permits (ASCII subset), but whose digit
`DatabaseManager._validate_username` (letters and spaces only) rejects. -/
def reqDigitUsername : RequestMessage :=
  ⟨List.replicate 16 0, 4, 1025, 255, [98, 111, 98, 49] ++ List.replicate 251 0⟩

/-- A SEND_FILE request whose embedded filename "a\b" contains a backslash. -/
def reqBackslashName : RequestMessage :=
  ⟨List.replicate 16 1, 4, 1028, 275,
    [16, 0, 0, 0] ++ ([97, 92, 98] ++ List.replicate 252 0) ++ List.replicate 16 5⟩

/-! ## Theorems -/

theorem memcrcLenFuel_adequate : ∀ (f1 : Nat), ∀ (f2 n s : Nat), n ≤ f1 → n ≤ f2 →
    memcrcLenFuel f1 n s = memcrcLenFuel f2 n s := by
  intro f1
  induction f1 with
  | zero =>
    intro f2 n s h1 _
    have : n = 0 := by omega
    subst this
    cases f2 <;> rfl
  | succ f1 ih =>
    intro f2 n s h1 h2
    cases n with
    | zero => cases f2 <;> rfl
    | succ n =>
      cases f2 with
      | zero => omega
      | succ f2 =>
        show memcrcLenFuel f1 ((n + 1) >>> 8) _ = memcrcLenFuel f2 ((n + 1) >>> 8) _
        have hs : (n + 1) >>> 8 ≤ n := by
          rw [Nat.shiftRight_eq_div_pow]
          have := Nat.div_le_self (n + 1) 256
          have := Nat.div_lt_self (show 0 < n + 1 by omega) (show 1 < 2 ^ 8 by norm_num)
          omega
        exact ih f2 _ _ (by omega) (by omega)

/-- The loop equation of `memcrcLen`. -/
theorem memcrcLen_eq (n s : Nat) :
    memcrcLen n s = if n = 0 then s else memcrcLen (n >>> 8) (crcStep s (n &&& 0o377)) := by
  cases n with
  | zero => rfl
  | succ n =>
    show memcrcLenFuel n ((n + 1) >>> 8) _ = memcrcLen ((n + 1) >>> 8) _
    unfold memcrcLen
    apply memcrcLenFuel_adequate
    · have := Nat.div_lt_self (show 0 < n + 1 by omega) (show 1 < 2 ^ 8 by norm_num)
      rw [Nat.shiftRight_eq_div_pow]
      omega
    · exact Nat.le_refl _

theorem specLenFoldFuel_adequate : ∀ (f1 : Nat), ∀ (f2 n s : Nat), n ≤ f1 → n ≤ f2 →
    specLenFoldFuel f1 n s = specLenFoldFuel f2 n s := by
  intro f1
  induction f1 with
  | zero =>
    intro f2 n s h1 _
    have : n = 0 := by omega
    subst this
    cases f2 <;> rfl
  | succ f1 ih =>
    intro f2 n s h1 h2
    cases n with
    | zero => cases f2 <;> rfl
    | succ n =>
      cases f2 with
      | zero => omega
      | succ f2 =>
        show specLenFoldFuel f1 ((n + 1) >>> 8) _ = specLenFoldFuel f2 ((n + 1) >>> 8) _
        have hs : (n + 1) >>> 8 ≤ n := by
          rw [Nat.shiftRight_eq_div_pow]
          have := Nat.div_lt_self (show 0 < n + 1 by omega) (show 1 < 2 ^ 8 by norm_num)
          omega
        exact ih f2 _ _ (by omega) (by omega)

/-- The loop equation of `specLenFold`. -/
theorem specLenFold_eq (n s : Nat) :
    specLenFold n s = if n = 0 then s else specLenFold (n >>> 8) (specStep s (n &&& 0xFF)) := by
  cases n with
  | zero => rfl
  | succ n =>
    show specLenFoldFuel n ((n + 1) >>> 8) _ = specLenFold ((n + 1) >>> 8) _
    unfold specLenFold
    apply specLenFoldFuel_adequate
    · have := Nat.div_lt_self (show 0 < n + 1 by omega) (show 1 < 2 ^ 8 by norm_num)
      rw [Nat.shiftRight_eq_div_pow]
      omega
    · exact Nat.le_refl _

/-- On a nonnegative input `UNSIGNED` is plain reduction modulo 2^32. -/
theorem UNSIGNED_natCast (m : Nat) : UNSIGNED (m : Int) = m % 2 ^ 32 := by
  unfold UNSIGNED
  norm_cast

set_option maxRecDepth 4096 in
/-- Every table entry is a 32-bit value. -/
theorem crctab_getD_lt (i : Nat) : crctab.getD i 0 < 2 ^ 32 := by
  have hall : crctab.all (fun x => decide (x < 2 ^ 32)) = true := by decide
  rw [List.all_eq_true] at hall
  rw [List.getD_eq_getElem?_getD]
  cases h : crctab[i]? with
  | none => simp
  | some v =>
    have hv := hall v (List.getElem?_mem h)
    simpa using hv

/-- XOR with a 32-bit value commutes with reduction modulo 2^32. -/
theorem xor_mod32 (a t : Nat) (ht : t < 2 ^ 32) :
    (a ^^^ t) % 2 ^ 32 = a % 2 ^ 32 ^^^ t := by
  apply Nat.eq_of_testBit_eq
  intro i
  simp only [Nat.testBit_mod_two_pow, Nat.testBit_xor]
  by_cases h : i < 32
  · simp [h]
  · have ht' : t.testBit i = false :=
      Nat.testBit_lt_two_pow (Nat.lt_of_lt_of_le ht (Nat.pow_le_pow_right (by norm_num) (by omega)))
    simp [h, ht']

/-- The source's accumulation step and the specification's wording agree. -/
theorem crcStep_eq_specStep : crcStep = specStep := by
  funext s ch
  unfold crcStep specStep
  rw [UNSIGNED_natCast, xor_mod32 _ _ (crctab_getD_lt _)]

theorem memcrcLen_eq_specLenFold (n : Nat) : ∀ s, memcrcLen n s = specLenFold n s := by
  induction n using Nat.strong_induction_on with
  | _ n ih =>
    intro s
    rw [memcrcLen_eq, specLenFold_eq]
    by_cases h : n = 0
    · simp [h]
    · simp only [h, if_false]
      rw [crcStep_eq_specStep]
      exact ih (n >>> 8) (by
        simp only [Nat.shiftRight_eq_div_pow]
        exact Nat.div_lt_self (Nat.pos_of_ne_zero h) (by norm_num)) _

/-- The accumulation step always yields a 32-bit value. -/
theorem crcStep_lt (s ch : Nat) : crcStep s ch < 2 ^ 32 := by
  unfold crcStep
  exact Nat.xor_lt_two_pow
    (by rw [UNSIGNED_natCast]; exact Nat.mod_lt _ (by norm_num))
    (crctab_getD_lt _)

theorem foldl_crcStep_lt (b : List Nat) : ∀ s, s < 2 ^ 32 → b.foldl crcStep s < 2 ^ 32 := by
  induction b with
  | nil => intro s hs; simpa using hs
  | cons ch rest ih => intro s _; exact ih _ (crcStep_lt s ch)

theorem memcrcLen_lt (n : Nat) : ∀ s, s < 2 ^ 32 → memcrcLen n s < 2 ^ 32 := by
  induction n using Nat.strong_induction_on with
  | _ n ih =>
    intro s hs
    rw [memcrcLen_eq]
    by_cases h : n = 0
    · simpa [h] using hs
    · simp only [h, if_false]
      exact ih (n >>> 8) (by
        simp only [Nat.shiftRight_eq_div_pow]
        exact Nat.div_lt_self (Nat.pos_of_ne_zero h) (by norm_num)) _ (crcStep_lt _ _)

/-- For a 32-bit value, XOR with the all-ones mask is complement within 32 bits. -/
theorem xor_allOnes32 (s : Nat) (hs : s < 2 ^ 32) :
    s ^^^ 0xFFFFFFFF = 2 ^ 32 - 1 - s := by
  have h1 : s ^^^ 0xFFFFFFFF
      = ((BitVec.ofNat 32 s) ^^^ (BitVec.ofNat 32 0xFFFFFFFF)).toNat := by
    rw [BitVec.toNat_xor, BitVec.toNat_ofNat, BitVec.toNat_ofNat,
      Nat.mod_eq_of_lt hs]
  have h2 : BitVec.ofNat 32 0xFFFFFFFF = BitVec.allOnes 32 := by decide
  rw [h1, h2, BitVec.xor_allOnes, BitVec.toNat_not, BitVec.toNat_ofNat,
    Nat.mod_eq_of_lt hs]

/-- C1: for every byte sequence, `memcrc` computes exactly the two-phase
table-driven checksum the specification describes: fold each data byte via
`s = (s << 8) XOR table[(s >> 24) XOR byte]` modulo 2^32, then fold in the
byte length one byte at a time from its low byte upward, and return the
bitwise complement of the accumulator masked to 32 bits. -/
theorem C1_memcrc_eq_checksumSpec (b : List Nat) : memcrc b = checksumSpec b := by
  have hlt : memcrcLen b.length (b.foldl crcStep 0) < 2 ^ 32 :=
    memcrcLen_lt _ _ (foldl_crcStep_lt b 0 (by norm_num))
  show UNSIGNED (-(memcrcLen b.length (b.foldl crcStep 0) : Int) - 1)
      = specLenFold b.length (b.foldl specStep 0) ^^^ 0xFFFFFFFF
  rw [← crcStep_eq_specStep, ← memcrcLen_eq_specLenFold]
  rw [xor_allOnes32 _ hlt]
  unfold UNSIGNED
  have h32i : (2 : Int) ^ 32 = 4294967296 := by norm_num
  have h32n : (2 : Nat) ^ 32 = 4294967296 := by norm_num
  rw [h32i, h32n]
  omega

theorem encodeLE_readLE : ∀ (k : Nat) (l : List Nat), k ≤ l.length →
    (∀ x ∈ l, x < 256) → encodeLE k (readLE k l) = l.take k := by
  intro k
  induction k with
  | zero => intro l _ _; simp [encodeLE]
  | succ k ih =>
    intro l hk hb
    match l with
    | [] => simp at hk
    | b :: rest =>
      have hb0 : b < 256 := hb b (List.mem_cons_self _ _)
      have hrest : ∀ x ∈ rest, x < 256 := fun x hx => hb x (List.mem_cons_of_mem _ hx)
      simp only [readLE, encodeLE]
      have h1 : (b + 256 * readLE k rest) % 256 = b := by omega
      have h2 : (b + 256 * readLE k rest) / 256 = readLE k rest := by omega
      rw [h1, h2, ih rest (by simpa using hk) hrest, List.take_succ_cons]

/-- C10: for every byte buffer accepted by the request decoder, re-encoding
the decoded fields (16-byte identity, then version / code / payload_length
little-endian, then the payload) reproduces the original buffer exactly. -/
theorem C10_decode_encode_roundtrip (buffer : List Nat) (m : RequestMessage)
    (hbytes : ∀ x ∈ buffer, x < 256)
    (hdec : RequestMessage.decode buffer = some m) :
    m.encode = buffer := by
  unfold RequestMessage.decode at hdec
  by_cases hlen : buffer.length < REQUEST_MIN_LEN
  · simp [hlen] at hdec
  · rw [if_neg hlen] at hdec
    simp only [ne_eq, ite_not] at hdec
    have hlen23 : 23 ≤ buffer.length := by
      simp only [REQUEST_MIN_LEN, Nat.not_lt] at hlen
      exact hlen
    split at hdec
    · cases hdec
      have hrbytes : ∀ x ∈ buffer.drop CLIENT_ID_LEN, x < 256 :=
        fun x hx => hbytes x (List.drop_subset _ _ hx)
      simp only [RequestMessage.encode]
      rw [encodeLE_readLE 1 _ (by simp only [List.length_drop, CLIENT_ID_LEN]; omega) hrbytes,
        encodeLE_readLE 2 _ (by simp only [List.length_drop, CLIENT_ID_LEN]; omega)
          (fun x hx => hrbytes x (List.drop_subset _ _ hx)),
        encodeLE_readLE 4 _ (by simp only [List.length_drop, CLIENT_ID_LEN]; omega)
          (fun x hx => hrbytes x (List.drop_subset _ _ hx))]
      have h3 : (buffer.drop CLIENT_ID_LEN).take 1
            ++ ((buffer.drop CLIENT_ID_LEN).drop 1).take 2
          = (buffer.drop CLIENT_ID_LEN).take 3 := (List.take_add _ 1 2).symm
      have h7 : (buffer.drop CLIENT_ID_LEN).take 3
            ++ ((buffer.drop CLIENT_ID_LEN).drop 3).take 4
          = (buffer.drop CLIENT_ID_LEN).take 7 := (List.take_add _ 3 4).symm
      have key : (buffer.drop CLIENT_ID_LEN).take 1
            ++ (((buffer.drop CLIENT_ID_LEN).drop 1).take 2
            ++ (((buffer.drop CLIENT_ID_LEN).drop 3).take 4
            ++ (buffer.drop CLIENT_ID_LEN).drop 7))
          = buffer.drop CLIENT_ID_LEN := by
        rw [← List.append_assoc, h3, ← List.append_assoc, h7, List.take_append_drop]
      simp only [List.append_assoc]
      rw [key, List.take_append_drop]
    · cases hdec

/-- C10 witness: a concrete 25-byte request round-trips. -/
theorem C10_roundtrip_witness :
    (RequestMessage.encode
      ⟨[1,2,3,4,5,6,7,8,9,10,11,12,13,14,15,16], 4, 1029, 2, [9,9]⟩)
      = [1,2,3,4,5,6,7,8,9,10,11,12,13,14,15,16] ++ [4] ++ [5,4] ++ [2,0,0,0] ++ [9,9] :=
  C10_decode_encode_roundtrip _ _ (by decide) (by decide)

/-- C3 counterexample: a 23-byte all-zero buffer decodes successfully even
though its message code 0 is not one of the seven recognized request codes,
so decoding does not fail with `UnknownMessageCode` as the claim requires. -/
theorem C3_unknown_code_still_decodes :
    RequestMessage.decode (List.replicate 23 0)
        = some ⟨List.replicate 16 0, 0, 0, 0, []⟩
      ∧ recognizedCode 0 = false := by
  constructor
  · decide
  · decide

/-- C3 (amended): decoding fails exactly when the buffer is shorter than 23
bytes or the bytes after the 23-byte header do not equal the declared
payload length; the message code is never examined by the decoder. -/
theorem C3_amended_decode_failure_iff (buffer : List Nat) :
    RequestMessage.decode buffer = none ↔
      buffer.length < 23 ∨
        (buffer.drop 23).length ≠ readLE 4 ((buffer.drop 16).drop 3) := by
  have hdd : (buffer.drop 16).drop 7 = buffer.drop 23 := by
    rw [List.drop_drop]
  unfold RequestMessage.decode
  simp only [REQUEST_MIN_LEN, CLIENT_ID_LEN, hdd]
  by_cases h : buffer.length < 23
  · simp [h]
  · simp only [h, if_false, false_or]
    by_cases h2 : (buffer.drop 23).length ≠ readLE 4 ((buffer.drop 16).drop 3)
    · simp [h2]
    · simp [h2]

theorem chunks16Fuel_adequate : ∀ (f1 : Nat), ∀ (f2 : Nat) (l : List Nat),
    l.length ≤ f1 → l.length ≤ f2 → chunks16Fuel f1 l = chunks16Fuel f2 l := by
  intro f1
  induction f1 with
  | zero =>
    intro f2 l h1 _
    have : l = [] := by
      cases l with
      | nil => rfl
      | cons x xs => simp at h1
    subst this
    cases f2 <;> rfl
  | succ f1 ih =>
    intro f2 l h1 h2
    cases l with
    | nil => cases f2 <;> rfl
    | cons x xs =>
      cases f2 with
      | zero => simp at h2
      | succ f2 =>
        show (x :: xs).take 16 :: chunks16Fuel f1 ((x :: xs).drop 16)
            = (x :: xs).take 16 :: chunks16Fuel f2 ((x :: xs).drop 16)
        have hlen : ((x :: xs).drop 16).length = (x :: xs).length - 16 := by simp
        simp only [List.length_cons] at h1 h2
        rw [ih f2 _ (by simp; omega) (by simp; omega)]

/-- The unfolding equation of `chunks16`. -/
theorem chunks16_eq (l : List Nat) :
    chunks16 l = if l = [] then [] else l.take 16 :: chunks16 (l.drop 16) := by
  cases l with
  | nil => rfl
  | cons x xs =>
    show (x :: xs).take 16 :: chunks16Fuel xs.length ((x :: xs).drop 16)
        = if x :: xs = [] then [] else (x :: xs).take 16 :: chunks16 ((x :: xs).drop 16)
    rw [if_neg (by simp)]
    unfold chunks16
    rw [chunks16Fuel_adequate xs.length _ _ (by simp) (Nat.le_refl _)]

/-! ### C2 — the dispatch never selects a handler -/


/-- C2: every successfully decoded request, whatever its numeric code,
falls through the `match request.code:` of `Client.handle_message` to the
default case — the decoded code is an `int` while the value patterns are
`RequestCode` enum members, and `pyEq` between an int and an enum member is
always false — so the request is treated as an invalid request code and
answered with a generic failure, no handler running and no state changing. -/
theorem C2_decoded_requests_fall_through (o : Oracle) (st : ClientState) (db : DB)
    (buffer : List Nat) (req : RequestMessage)
    (hactive : st.active = true)
    (hdec : RequestMessage.decode buffer = some req) :
    handleDispatch req.code = Branch.invalidCode ∧
      Client.handle_message o st db buffer = .step st db [.genericFailure] := by
  have hd : handleDispatch req.code = Branch.invalidCode := rfl
  refine ⟨hd, ?_⟩
  unfold Client.handle_message
  rw [if_neg (by simp [hactive])]
  rw [hdec]
  rfl

set_option maxRecDepth 10000 in
/-- C2 witness: a well-formed SIGN_UP request — code 1025, the value of
`RequestCode.SIGN_UP` — on a fresh active session is still answered with a
generic failure. -/
theorem C2_fall_through_witness :
    handleDispatch
        (RequestMessage.mk (List.replicate 16 0) 4 1025 255 (List.replicate 255 97)).code
        = Branch.invalidCode ∧
      Client.handle_message oracle0 initialClientState db0
          (List.replicate 16 0 ++ [4, 1, 4, 255, 0, 0, 0] ++ List.replicate 255 97)
        = .step initialClientState db0 [.genericFailure] :=
  C2_decoded_requests_fall_through oracle0 initialClientState db0 _
    ⟨List.replicate 16 0, 4, 1025, 255, List.replicate 255 97⟩ (by decide) (by decide)

/-! ### C6 — zero-IV CBC per block equals independent block decryption -/


theorem foldl_append_flatten (f : Nat → List Nat) :
    ∀ (l : List Nat) (acc : List Nat),
      l.foldl (fun a i => a ++ f i) acc = acc ++ (l.map f).flatten := by
  intro l
  induction l with
  | nil => intro acc; simp
  | cons x xs ih => intro acc; simp [ih, List.append_assoc]

theorem chunks16_nil_eq : chunks16 [] = [] := rfl

theorem chunks16_cons_eq (l : List Nat) (h : l ≠ []) :
    chunks16 l = l.take 16 :: chunks16 (l.drop 16) := by
  rw [chunks16_eq, if_neg h]

/-- The slice-indexed loop of the source visits exactly the 16-byte chunks. -/
theorem rangeMap_slices_eq_chunks (f : List Nat → List Nat) :
    ∀ (k : Nat) (ct : List Nat), ct.length = 16 * k →
      ((List.range k).map (fun i => f ((ct.drop (i * 16)).take 16))).flatten
        = ((chunks16 ct).map f).flatten := by
  intro k
  induction k with
  | zero =>
    intro ct h
    have hct : ct = [] := List.eq_nil_of_length_eq_zero (by omega)
    subst hct
    simp [chunks16_nil_eq]
  | succ k ih =>
    intro ct h
    have hne : ct ≠ [] := by
      intro hc
      subst hc
      simp at h
    rw [chunks16_cons_eq ct hne, List.range_succ_eq_map]
    simp only [List.map_cons, List.map_map, List.flatten_cons, Nat.zero_mul,
      List.drop_zero]
    congr 1
    have hmap : (List.range k).map ((fun i => f ((ct.drop (i * 16)).take 16)) ∘ Nat.succ)
        = (List.range k).map (fun i => f (((ct.drop 16).drop (i * 16)).take 16)) := by
      apply List.map_congr_left
      intro i _
      simp only [Function.comp]
      have : (i + 1) * 16 = 16 + i * 16 := by ring
      rw [List.drop_drop, this]
    rw [hmap]
    exact ih (ct.drop 16) (by simp [List.length_drop]; omega)

/-- The per-iteration work: CBC decryption of a single 16-byte block under a
zero IV is exactly the single-block decryption. -/
theorem zipWith_xor_replicate_zero (l : List Nat) :
    ∀ n, l.length = n → List.zipWith (fun a b => a ^^^ b) l (List.replicate n 0) = l := by
  induction l with
  | nil => intro n h; simp
  | cons x xs ih =>
    intro n h
    cases n with
    | zero => simp at h
    | succ n =>
      rw [List.replicate_succ]
      simp only [List.zipWith_cons_cons, Nat.xor_zero]
      rw [ih n (by simpa using h)]

theorem pyCbcDecrypt_single_block (decBlock : List Nat → List Nat) (b : List Nat)
    (hb : b.length = 16) (hd : (decBlock b).length = 16) :
    pyCbcDecrypt decBlock (List.replicate 16 0) b = decBlock b := by
  unfold pyCbcDecrypt
  have hne : b ≠ [] := by intro h; subst h; simp at hb
  rw [chunks16_cons_eq b hne, List.take_of_length_le (by omega),
    List.drop_eq_nil_of_le (by omega), chunks16_nil_eq]
  simp only [cbcChain, List.flatten_cons, List.flatten_nil, List.append_nil]
  exact zipWith_xor_replicate_zero _ 16 hd

theorem chunks16_block_length : ∀ (k : Nat) (ct : List Nat), ct.length = 16 * k →
    ∀ c ∈ chunks16 ct, c.length = 16 := by
  intro k
  induction k with
  | zero =>
    intro ct h c hc
    have hct : ct = [] := List.eq_nil_of_length_eq_zero (by omega)
    subst hct
    simp [chunks16_nil_eq] at hc
  | succ k ih =>
    intro ct h c hc
    have hne : ct ≠ [] := by intro hcn; subst hcn; simp at h
    rw [chunks16_cons_eq ct hne] at hc
    rcases List.mem_cons.mp hc with hc2 | hc2
    · subst hc2
      rw [List.length_take]
      omega
    · exact ih (ct.drop 16) (by simp [List.length_drop]; omega) c hc2

/-- C6: for every block-decryption function (AES under the 16-byte session
key) and every ciphertext whose length is a multiple of 16, the decryption
loop of `Client._decrypt_and_save_file` — a fresh CBC cipher with an
all-zero IV per 16-byte block — returns exactly the in-order concatenation
of the independent single-block decryptions: no chaining crosses blocks. -/
theorem C6_decrypt_blocks_independent (decBlock : List Nat → List Nat) (ct : List Nat)
    (hd : ∀ b, (decBlock b).length = 16)
    (hlen : ct.length % 16 = 0) :
    decryptLoop decBlock ct = independentBlockDecrypt decBlock ct := by
  obtain ⟨k, hk⟩ : ∃ k, ct.length = 16 * k := ⟨ct.length / 16, by omega⟩
  unfold decryptLoop independentBlockDecrypt
  rw [foldl_append_flatten, List.nil_append]
  have hdiv : ct.length / 16 = k := by omega
  rw [hdiv,
    rangeMap_slices_eq_chunks (fun b => pyCbcDecrypt decBlock (List.replicate 16 0) b) k ct hk]
  congr 1
  apply List.map_congr_left
  intro c hc
  exact pyCbcDecrypt_single_block decBlock c (chunks16_block_length k ct hk c hc) (hd c)

/-- C6 witness: a concrete two-block ciphertext under a concrete block
decryption function. -/
theorem C6_decrypt_blocks_witness :
    decryptLoop (fun b => (b.reverse ++ List.replicate 16 0).take 16)
        ((List.range 16).map (fun i => i + 1) ++ List.replicate 16 3)
      = independentBlockDecrypt (fun b => (b.reverse ++ List.replicate 16 0).take 16)
        ((List.range 16).map (fun i => i + 1) ++ List.replicate 16 3) :=
  C6_decrypt_blocks_independent _ _
    (fun b => by simp [List.length_take]) (by decide)

/-! ### C7 — CRC_INVALID_4TH_TIME terminates the session -/


/-- C7: a CRC_INVALID_4TH_TIME message handled in TRANSFER mode with
matching identity, payload size and filename is acknowledged, leaves the
session inactive, the multiplexer closes the socket, and every subsequent
`handle_message` on that session raises before decoding, dispatching or
invoking any handler. -/
theorem C7_terminate_ends_session (o : Oracle) (st : ClientState) (db : DB)
    (req : RequestMessage)
    (hmode : st.awaiting_file = true)
    (hid : st.client_id = req.client_id)
    (hsize : req.payload_size = MAX_FILE_NAME_LEN)
    (hfn : st.filename = some (getStringFromBytes req.payload)) :
    Client.runHandler o .CRC_INVALID_4TH_TIME st db req
        = .ok { st with active := false } db (some (.genericAck st.client_id)) ∧
      multiplexerClosesSocket { st with active := false } = true ∧
      ∀ (o2 : Oracle) (db2 : DB) (buffer : List Nat),
        Client.handle_message o2 { st with active := false } db2 buffer
          = .inactiveError := by
  refine ⟨?_, rfl, fun o2 db2 buffer => ?_⟩
  · unfold Client.runHandler Client.handle_terminate
    rw [if_neg (by simp [hmode]), if_neg (by simp [hid]), if_neg (by simp [hsize]), hfn]
    simp
  · unfold Client.handle_message
    rw [if_pos (by simp)]

/-- C7 witness: a concrete terminated session. -/
theorem C7_terminate_witness :
    Client.runHandler oracle0 .CRC_INVALID_4TH_TIME stTransfer db0
        ⟨List.replicate 16 1, 4, 1031, 255, [97] ++ List.replicate 254 0⟩
        = .ok { stTransfer with active := false } db0
            (some (.genericAck stTransfer.client_id)) ∧
      multiplexerClosesSocket { stTransfer with active := false } = true ∧
      ∀ (o2 : Oracle) (db2 : DB) (buffer : List Nat),
        Client.handle_message o2 { stTransfer with active := false } db2 buffer
          = .inactiveError :=
  C7_terminate_ends_session oracle0 stTransfer db0 _ (by decide) (by decide) (by decide)
    (by decide)

/-! ### C8 — SIGN_UP semantics -/


set_option maxRecDepth 10000 in
/-- C8 counterexample: the username "bob1" has no client record (the
database is empty), yet its SIGN_UP creates no record and binds nothing —
`_validate_username` admits only letters and spaces, so the digit makes
`get_client_by_name` raise `ValueError` and the request is answered with a
generic failure, the database and session unchanged.  This refutes the
claim's second half, which promises a fresh record for *every* username
without a record. -/
theorem C8_unregistered_digit_username_rejected :
    (db0.clients.filter
        (fun c => c.name == getStringFromBytes reqDigitUsername.payload)).head? = none ∧
      validUsername (getStringFromBytes reqDigitUsername.payload) = false ∧
      Client.handlerStep oracle0 .SIGN_UP initialClientState db0 reqDigitUsername
        = (initialClientState, db0, [.genericFailure]) := by
  refine ⟨?_, ?_, ?_⟩
  · decide
  · decide
  · decide

/-- C8 (amended): under the registration preconditions (CONTROL mode,
255-byte payload) and for usernames within the registry validator's charset
(letters and spaces only — stricter than the wire-protocol section of the
specification), with `os.urandom` returning a 16-byte identity not already
present: a SIGN_UP whose username already has a record returns
SIGN_UP_FAILED and changes neither the database (so in particular the
pre-existing record) nor the session; a SIGN_UP whose username has no
record appends exactly one record carrying the fresh identity and binds
that identity and the username to the session.  A username outside that
charset is answered with a generic failure and creates no record (see the
counterexample). -/
theorem C8_registration_semantics (o : Oracle) (st : ClientState) (db : DB)
    (req : RequestMessage)
    (hmode : st.awaiting_file = false)
    (hsize : req.payload_size = MAX_USER_NAME_LEN)
    (hvalid : validUsername (getStringFromBytes req.payload) = true)
    (hfresh : ∀ r ∈ db.clients, r.id ≠ o.urandom_id)
    (hlen : o.urandom_id.length = 16) :
    (∀ r, (db.clients.filter
          (fun c => c.name == getStringFromBytes req.payload)).head? = some r →
        Client.handle_registration o st db req = .ok st db (some .registrationFailed)) ∧
      ((db.clients.filter
          (fun c => c.name == getStringFromBytes req.payload)).head? = none →
        Client.handle_registration o st db req
          = .ok { st with client_id := o.urandom_id,
                          username := some (getStringFromBytes req.payload) }
              ⟨db.clients ++ [⟨o.urandom_id, getStringFromBytes req.payload, [], 0, []⟩],
                db.files⟩
              (some (.registrationSuccessful o.urandom_id)) ∧
          o.urandom_id.length = 16) := by
  constructor
  · intro r hr
    simp [Client.handle_registration, DatabaseManager.get_client_by_name,
      hmode, hsize, hvalid, hr]
  · intro hnone
    have hany : db.clients.any (fun r => r.id == o.urandom_id) = false := by
      rw [List.any_eq_false]
      intro r hrm
      simpa using hfresh r hrm
    have hfil : db.clients.filter (fun c => c.name == getStringFromBytes req.payload) = [] :=
      List.head?_eq_none_iff.mp hnone
    refine ⟨?_, hlen⟩
    simp [Client.handle_registration, DatabaseManager.get_client_by_name,
      DatabaseManager.create_new_client, hmode, hsize, hvalid, hnone, hany,
      List.filter_append, hfil]

/-- C8 witness: registering the username "ab" in an empty database binds the
fresh identity. -/
theorem C8_registration_witness :
    Client.handle_registration oracle0 initialClientState db0
        ⟨List.replicate 16 0, 4, 1025, 255, [97, 98] ++ List.replicate 253 0⟩
      = .ok ⟨List.replicate 16 7, some [97, 98], none, none, false, true⟩
          ⟨[⟨List.replicate 16 7, [97, 98], [], 0, []⟩], []⟩
          (some (.registrationSuccessful (List.replicate 16 7))) :=
  ((C8_registration_semantics oracle0 initialClientState db0
    ⟨List.replicate 16 0, 4, 1025, 255, [97, 98] ++ List.replicate 253 0⟩
    (by decide) (by decide) (by decide) (by intro r hr; simp [db0] at hr) (by decide)).2
    (by decide)).1

set_option maxRecDepth 100000 in
/-- C4 counterexample: handling this SEND_FILE fails inside persistence
(`_validate_filename` rejects "a_b"), the server answers with the generic
failure response — and yet the session's `pending_filename` differs from
its value before the message, because `_handle_file` assigns
`self.filename` before `_decrypt_and_save_file` can fail.  The session is
not left in its prior state. -/
theorem C4_failure_mutates_pending_filename :
    Client.handlerStep oracle0 .SEND_FILE stTransfer db0 reqUnderscoreName
        = ({ stTransfer with filename := some [97, 95, 98] }, db0, [.genericFailure]) ∧
      ({ stTransfer with filename := some [97, 95, 98] } : ClientState).filename
        ≠ stTransfer.filename := by
  constructor
  · decide
  · decide

/-- C4 (amended): a message failing a handler *precondition* is answered
with the generic failure response and leaves session and database exactly
as they were.  (Failures inside crypto or persistence also answer
GENERAL_ERROR, but may retain mutations made before the raise — see the
counterexample.) -/
theorem C4_amended_precondition_preserves_state (o : Oracle) (c : RequestCode)
    (st : ClientState) (db : DB) (req : RequestMessage)
    (hv : precondViolated c st db req = true) :
    Client.handlerStep o c st db req = (st, db, [SResponse.genericFailure]) := by
  have herr : Client.runHandler o c st db req = .err st db := by
    cases c
    case SIGN_UP =>
      simp only [precondViolated, Bool.or_eq_true, bne_iff_ne, ne_eq] at hv
      show Client.handle_registration o st db req = .err st db
      unfold Client.handle_registration
      by_cases h1 : st.awaiting_file = true
      · rw [if_pos h1]
      · have h2 : ¬ req.payload_size = MAX_USER_NAME_LEN := by tauto
        rw [if_neg h1, if_pos h2]
    case SEND_PUBLIC_KEY =>
      simp only [precondViolated, Bool.or_eq_true, bne_iff_ne, ne_eq] at hv
      show Client.handle_public_key o st db req = .err st db
      rcases hsu : st.username with _ | un
      all_goals by_cases h1 : st.awaiting_file = true
      all_goals by_cases h2 : req.payload_size = MAX_USER_NAME_LEN + PUBLIC_KEY_SIZE
      all_goals by_cases h3 : st.client_id = req.client_id
      all_goals try simp [Client.handle_public_key, hsu, h1, h2, h3]
      have h4 : un ≠ getStringFromBytes (req.payload.take MAX_USER_NAME_LEN) := by
        rcases hv with ((hv | hv) | hv) | hv
        · exact absurd hv h1
        · exact absurd h2 hv
        · exact absurd h3 hv
        · rw [hsu] at hv
          intro he
          exact hv (by rw [he])
      simp [Client.handle_public_key, hsu, h1, h2, h3, h4]
    case SIGN_IN =>
      show Client.handle_login o st db req = .err st db
      simp only [precondViolated, Bool.or_eq_true, bne_iff_ne, ne_eq] at hv
      by_cases h1 : st.awaiting_file = true
      · simp [Client.handle_login, h1]
      · by_cases h2 : req.payload_size = MAX_USER_NAME_LEN
        · rcases hrow : DatabaseManager.get_client_by_id db req.client_id with _ | row
          · exfalso
            simp only [hrow] at hv
            rcases hv with (hv | hv) | hv
            · exact h1 hv
            · exact hv h2
            · simp at hv
          · simp only [hrow, Bool.and_eq_true] at hv
            rcases hv with (hv | hv) | hv
            · exact absurd hv h1
            · exact absurd h2 hv
            · have hpk : ¬ row.public_key = [] := by simpa using hv.1
              have hnm : getStringFromBytes (req.payload.take MAX_USER_NAME_LEN)
                  ≠ row.name := by simpa using hv.2
              simp [Client.handle_login, h1, h2, hrow, hpk, hnm]
        · simp [Client.handle_login, h1, h2]
    case SEND_FILE =>
      show Client.handle_file o st db req = .err st db
      unfold Client.handle_file
      simp only [precondViolated, Bool.or_eq_true, bne_iff_ne, ne_eq,
        Bool.not_eq_eq_eq_not, Bool.not_true, decide_eq_true_eq] at hv
      by_cases h1 : st.awaiting_file = true
      · rw [if_neg (by simp [h1])]
        by_cases h3 : st.client_id = req.client_id
        · rw [if_neg (by simp [h3])]
          have h4 : req.payload_size ≤ 4 + MAX_FILE_NAME_LEN := by
            rcases hv with (hv | hv) | hv
            · rw [h1] at hv; simp at hv
            · exact absurd h3 hv
            · exact hv
          rw [if_pos h4]
        · rw [if_pos h3]
      · rw [if_pos (by simpa using h1)]
    case CRC_VALID =>
      show Client.handle_valid_crc o st db req = .err st db
      simp only [precondViolated, Bool.or_eq_true, bne_iff_ne, ne_eq] at hv
      rcases hsf : st.filename with _ | fn
      all_goals by_cases h1 : st.awaiting_file = true
      all_goals by_cases h3 : st.client_id = req.client_id
      all_goals by_cases h2 : req.payload_size = MAX_FILE_NAME_LEN
      all_goals try simp [Client.handle_valid_crc, hsf, h1, h3, h2]
      have h4 : getStringFromBytes req.payload ≠ fn := by
        rcases hv with ((hv | hv) | hv) | hv
        · exact absurd hv h1
        · exact absurd h3 hv
        · exact absurd h2 hv
        · rw [hsf] at hv
          intro he
          exact hv (by rw [he])
      simp [Client.handle_valid_crc, hsf, h1, h3, h2, h4]
    case CRC_INVALID =>
      show Client.handle_invalid_crc o st db req = .err st db
      simp only [precondViolated, Bool.or_eq_true, bne_iff_ne, ne_eq] at hv
      rcases hsf : st.filename with _ | fn
      all_goals by_cases h3 : st.client_id = req.client_id
      all_goals by_cases h2 : req.payload_size = MAX_FILE_NAME_LEN
      all_goals try simp [Client.handle_invalid_crc, hsf, h3, h2]
      have h4 : getStringFromBytes req.payload ≠ fn := by
        rcases hv with (hv | hv) | hv
        · exact absurd h3 hv
        · exact absurd h2 hv
        · rw [hsf] at hv
          intro he
          exact hv (by rw [he])
      simp [Client.handle_invalid_crc, hsf, h3, h2, h4]
    case CRC_INVALID_4TH_TIME =>
      show Client.handle_terminate o st db req = .err st db
      simp only [precondViolated, Bool.or_eq_true, bne_iff_ne, ne_eq,
        Bool.not_eq_eq_eq_not, Bool.not_true] at hv
      rcases hsf : st.filename with _ | fn
      all_goals by_cases h1 : st.awaiting_file = true
      all_goals by_cases h3 : st.client_id = req.client_id
      all_goals by_cases h2 : req.payload_size = MAX_FILE_NAME_LEN
      all_goals try simp [Client.handle_terminate, hsf, h1, h3, h2]
      have h4 : getStringFromBytes req.payload ≠ fn := by
        rcases hv with ((hv | hv) | hv) | hv
        · rw [h1] at hv; simp at hv
        · exact absurd h3 hv
        · exact absurd h2 hv
        · rw [hsf] at hv
          intro he
          exact hv (by rw [he])
      simp [Client.handle_terminate, hsf, h1, h3, h2, h4]
  rw [Client.handlerStep, herr]
  rfl

/-- C4 amended witness: a SIGN_UP with a 3-byte payload (wrong size) is
answered with a generic failure and changes nothing. -/
theorem C4_amended_witness :
    Client.handlerStep oracle0 .SIGN_UP initialClientState db0
        ⟨List.replicate 16 0, 4, 1025, 3, [1, 2, 3]⟩
      = (initialClientState, db0, [SResponse.genericFailure]) :=
  C4_amended_precondition_preserves_state oracle0 .SIGN_UP initialClientState db0
    ⟨List.replicate 16 0, 4, 1025, 3, [1, 2, 3]⟩ (by decide)

set_option maxRecDepth 100000 in
/-- C5: the code violates the claim.  A completed SEND_FILE for
(identity, "nx") followed by the matching CRC_VALID is acknowledged with
MESSAGE_RECEIVED, but `set_file_to_valid` runs
`UPDATE files SET verified = 1 WHERE file_name = ?` bound to the 16-byte
client id: a BLOB compared against the TEXT `file_name` column never
matches, so the single stored record stays unvalidated — the claim requires
exactly one validated record for (identity, filename). -/
theorem C5_crc_valid_validates_no_record :
    ∃ stA dbA r1 stB dbB,
      Client.runHandler oracle0 .SEND_FILE stTransfer db0 reqSendFile = .ok stA dbA r1 ∧
      Client.runHandler oracle0 .CRC_VALID stA dbA reqCrcValid
        = .ok stB dbB (some (.genericAck (List.replicate 16 1))) ∧
      dbB.countValidated (List.replicate 16 1) [110, 120] = 0 ∧
      dbB.files.length = 1 := by
  refine ⟨_, _, _, _, _, rfl, rfl, ?_, ?_⟩
  · decide
  · decide

set_option maxRecDepth 100000 in
/-- C9 counterexample: the server accepts a SEND_FILE whose filename is
"../x" — `DatabaseManager._validate_filename` allows both "." and "/" — and
stores a file record under exactly that name, instead of rejecting the
message with GENERAL_ERROR as the claim requires. -/
theorem C9_traversal_filename_accepted :
    ∃ stA dbA crc,
      Client.runHandler oracle0 .SEND_FILE stTransfer db0 reqTraversalName
        = .ok stA dbA (some (.fileReceived (List.replicate 16 1) 16 [46, 46, 47, 120] crc)) ∧
      dbA.files.map (fun r => r.file_name) = [.text [46, 46, 47, 120]] := by
  refine ⟨_, _, _, rfl, ?_⟩
  decide

/-- Whenever `_decrypt_and_save_file` runs with a `pending_filename` the
validator rejects, it raises without touching the database. -/
theorem decrypt_and_save_file_err_of_invalid (o : Oracle) (st : ClientState) (db : DB)
    (encrypted : List Nat) (content_size : Nat)
    (hfn : ∀ fn, st.filename = some fn → validFilename fn = false) :
    Client.decrypt_and_save_file o st db encrypted content_size = .error () := by
  have hins : ∀ fn fc, st.filename = some fn →
      DatabaseManager.insert_unvalidated_file db fn fc st.client_id = .error () := by
    intro fn fc hsf
    unfold DatabaseManager.insert_unvalidated_file
    rw [if_pos (by simp [hfn fn hsf])]
  have key : ∀ (d : Except Unit (List Nat)),
      (match d with
        | .error _ => (.error () : Except Unit (DB × Nat))
        | .ok file_content =>
          if file_content.length < content_size then .error ()
          else
            match st.filename with
            | none => .error ()
            | some fn =>
              match DatabaseManager.insert_unvalidated_file db fn
                  (file_content.take content_size) st.client_id with
              | .error _ => .error ()
              | .ok db1 => .ok (db1, memcrc (file_content.take content_size)))
        = .error () := by
    intro d
    rcases d with _ | fc
    · rfl
    · show (if fc.length < content_size then (.error () : Except Unit (DB × Nat))
          else
            match st.filename with
            | none => .error ()
            | some fn =>
              match DatabaseManager.insert_unvalidated_file db fn
                  (fc.take content_size) st.client_id with
              | .error _ => .error ()
              | .ok db1 => .ok (db1, memcrc (fc.take content_size))) = .error ()
      by_cases hlen : fc.length < content_size
      · rw [if_pos hlen]
      · rw [if_neg hlen]
        rcases hsf : st.filename with _ | fn
        · rfl
        · show (match DatabaseManager.insert_unvalidated_file db fn
                (fc.take content_size) st.client_id with
              | .error _ => (.error () : Except Unit (DB × Nat))
              | .ok db1 => .ok (db1, memcrc (fc.take content_size))) = .error ()
          rw [hins fn (fc.take content_size) hsf]
  unfold Client.decrypt_and_save_file
  exact key _

/-- C9 (amended): `_validate_filename` accepts exactly alphanumerics, space,
"." and "/".  A SEND_FILE whose decoded filename contains any character
outside that set (for instance a backslash) is answered with GENERAL_ERROR
and stores no file record — the database is unchanged.  But "." and "/" are
inside the set, so the traversal sequences ".." and "/" are accepted (see
the counterexample); contrapositively, filenames accepted by SEND_FILE
consist only of characters from that set.  (`hascii` restricts the claim to
7-bit payloads, where the embedding of Python's UTF-8 decoding and
character classes is exact.) -/
theorem C9_amended_invalid_filename_rejected (o : Oracle) (st : ClientState) (db : DB)
    (req : RequestMessage)
    (hascii : ∀ x ∈ req.payload, x < 128)
    (hbad : validFilename (sendFileFilenameOf req) = false) :
    ∃ st2, Client.handlerStep o .SEND_FILE st db req = (st2, db, [SResponse.genericFailure]) := by
  have herr : ∃ st2, Client.handle_file o st db req = .err st2 db := by
    unfold Client.handle_file
    by_cases h1 : st.awaiting_file = true
    · rw [if_neg (by simp [h1])]
      by_cases h3 : st.client_id = req.client_id
      · rw [if_neg (by simp [h3])]
        by_cases h4 : req.payload_size ≤ 4 + MAX_FILE_NAME_LEN
        · exact ⟨st, by rw [if_pos h4]⟩
        · rw [if_neg h4]
          by_cases h5 : (req.payload.take 4).length ≠ 4
          · exact ⟨st, by rw [if_pos h5]⟩
          · rw [if_neg h5]
            refine ⟨{ st with filename := some (sendFileFilenameOf req) }, ?_⟩
            have herr2 : ∀ encrypted content_size,
                Client.decrypt_and_save_file o
                  { st with filename := some (sendFileFilenameOf req) } db
                  encrypted content_size = .error () := by
              intro encrypted content_size
              apply decrypt_and_save_file_err_of_invalid
              intro fn2 h2
              have he : sendFileFilenameOf req = fn2 := by simpa using h2
              rw [← he]
              exact hbad
            simp only [sendFileFilenameOf] at herr2
            simp only [herr2]
            rfl
      · exact ⟨st, by rw [if_pos h3]⟩
    · exact ⟨st, by rw [if_pos (by simpa using h1)]⟩
  obtain ⟨st2, h⟩ := herr
  exact ⟨st2, by simp only [Client.handlerStep, Client.runHandler, h, Client.afterCatch]⟩

set_option maxRecDepth 100000 in
/-- C9 amended witness: the backslash filename "a\b" is rejected with a
generic failure and the database is unchanged. -/
theorem C9_amended_witness :
    ∃ st2, Client.handlerStep oracle0 .SEND_FILE stTransfer db0 reqBackslashName
      = (st2, db0, [SResponse.genericFailure]) :=
  C9_amended_invalid_filename_rejected oracle0 stTransfer db0 reqBackslashName
    (by decide) (by decide)

end Maman15
